import Mathlib

/-!
Shallow embedding of the DRIP streaming-payments contract
(`contracts/drip-core-testnet.clar`), sBTC ledger side, together with
proofs of the stated properties of its vesting math and its
create / withdraw / cancel state transitions.

Clarity `uint` values are modelled as `Nat`; the 128-bit width of the
Clarity runtime is reasoned about explicitly where a claim concerns
overflow.  Principals are modelled as natural numbers, with `0`
reserved for the contract's own (escrow) principal.
-/

namespace Drip

/-- Principals (Stacks addresses) are identified abstractly by naturals. -/
abbrev Principal := Nat

/-- The contract's own principal, used as the escrow account
(`current-contract` in the source). -/
def contractPrincipal : Principal := 0

/-- Error constants of the contract (`ERR-STREAM-NOT-FOUND` etc.);
`TransferFailed` also stands for the error propagated by `try!` from a
failed token-contract transfer. -/
inductive ClarErr where
  | NotAuthorized
  | StreamNotFound
  | StreamDepleted
  | InvalidAmount
  | InvalidDuration
  | NotRecipient
  | NotSender
  | StreamNotActive
  | TransferFailed
  | StxTransferFailed
  deriving DecidableEq

/-- A stream record, one entry of the `streams` map of the contract. -/
structure StreamRec where
  sender : Principal
  recipient : Principal
  totalAmount : Nat
  withdrawn : Nat
  startBlock : Nat
  endBlock : Nat
  active : Bool
  deriving DecidableEq

/-- The pair returned by a successful `cancel-stream`. -/
structure CancelResult where
  recipientReceived : Nat
  senderRefunded : Nat
  deriving DecidableEq

/-- The chain state seen by the sBTC ledger of the contract: the current
block height (`stacks-block-height`), the `stream-nonce` data var, the
`streams` map, the two reverse-index maps `sender-streams` and
`recipient-streams`, and the balance table of the external sBTC token. -/
structure ChainState where
  blockHeight : Nat
  streamNonce : Nat
  streams : Nat → Option StreamRec
  senderStreams : Principal → Option (List Nat)
  recipientStreams : Principal → Option (List Nat)
  balances : Principal → Nat

/-- Core vesting formula, the body of `calculate-vested-amount` after its
`let`-bindings have extracted `(total, start, end)` from the record and
`current` from the block height. -/
def vestedCalc (total start endB now : Nat) : Nat :=
  if now ≤ start then 0
  else if endB ≤ now then total
  else total * (now - start) / (endB - start)

/-- Embedding of `calculate-vested-amount`: reads the stream record and
applies the vesting formula at the current block height; a missing
record yields `u0` (the `unwrap!` default in the source). -/
def calculateVestedAmount (s : ChainState) (streamId : Nat) : Nat :=
  match s.streams streamId with
  | none => 0
  | some stream =>
      vestedCalc stream.totalAmount stream.startBlock stream.endBlock s.blockHeight

/-- Embedding of `add-to-list`: `as-max-len? (append current-list stream-id) u50`
keeps the appended list only when its length is at most 50, otherwise the
`unwrap!` default returns the original list unchanged. -/
def addToList (streamId : Nat) (currentList : List Nat) : List Nat :=
  if (currentList ++ [streamId]).length ≤ 50 then currentList ++ [streamId]
  else currentList

/-- Modelled from the spec (§4.3 FungibleTokenCustody): the external
sBTC token contract's `transfer` entry point, which is not part of this
repository.  It debits `sender` and credits `to`, failing exactly when
`sender`'s balance is insufficient. -/
def sbtcTransfer (b : Principal → Nat) (sender dst : Principal) (amount : Nat) :
    Except ClarErr (Principal → Nat) :=
  if b sender < amount then .error .TransferFailed
  else
    let b1 : Principal → Nat := fun p => if p = sender then b sender - amount else b p
    .ok fun p => if p = dst then b1 dst + amount else b1 p

/-- Embedding of `transfer-sbtc-from-escrow`: a token transfer whose
sender is the contract's own principal. -/
def transferSbtcFromEscrow (b : Principal → Nat) (amount : Nat) (dst : Principal) :
    Except ClarErr (Principal → Nat) :=
  sbtcTransfer b contractPrincipal dst amount

/-- Embedding of `create-stream`.  Mutations are threaded in source
order: the escrow-in transfer, then the `streams` record, the two index
entries, and finally the nonce; every failure occurs before any ledger
write, and a failing call returns the state it had reached. -/
def createStream (s : ChainState) (txSender recipient : Principal)
    (totalAmount durationBlocks : Nat) : Except ClarErr Nat × ChainState :=
  let streamId := s.streamNonce
  let startBlock := s.blockHeight
  let endBlock := s.blockHeight + durationBlocks
  let sender := txSender
  if 0 < totalAmount then
    if 0 < durationBlocks then
      match sbtcTransfer s.balances sender contractPrincipal totalAmount with
      | .error e => (.error e, s)
      | .ok b1 =>
          let newRec : StreamRec :=
            { sender := sender, recipient := recipient,
              totalAmount := totalAmount, withdrawn := 0,
              startBlock := startBlock, endBlock := endBlock,
              active := true }
          let s1 : ChainState := { s with balances := b1 }
          let newStreams : Nat → Option StreamRec := fun id =>
            if id = streamId then some newRec else s1.streams id
          let s2 : ChainState := { s1 with streams := newStreams }
          let newSenderIdx : Principal → Option (List Nat) := fun p =>
            if p = sender then
              some (addToList streamId ((s2.senderStreams sender).getD []))
            else s2.senderStreams p
          let s3 : ChainState := { s2 with senderStreams := newSenderIdx }
          let newRecipientIdx : Principal → Option (List Nat) := fun p =>
            if p = recipient then
              some (addToList streamId ((s3.recipientStreams recipient).getD []))
            else s3.recipientStreams p
          let s4 : ChainState := { s3 with recipientStreams := newRecipientIdx }
          let s5 : ChainState := { s4 with streamNonce := streamId + 1 }
          (.ok streamId, s5)
    else (.error .InvalidDuration, s)
  else (.error .InvalidAmount, s)

/-- Embedding of `withdraw`.  The `let` computes `vested` and
`available = vested - withdrawn` before the `asserts!` chain
(recipient, active, available), then performs the escrow-out transfer
and finally stores `withdrawn := vested`. -/
def withdraw (s : ChainState) (txSender : Principal) (streamId : Nat) :
    Except ClarErr Nat × ChainState :=
  match s.streams streamId with
  | none => (.error .StreamNotFound, s)
  | some stream =>
      let vested := calculateVestedAmount s streamId
      let available := vested - stream.withdrawn
      if txSender = stream.recipient then
        if stream.active then
          if 0 < available then
            match transferSbtcFromEscrow s.balances available stream.recipient with
            | .error e => (.error e, s)
            | .ok b1 =>
                let s1 : ChainState := { s with balances := b1 }
                let newStreams : Nat → Option StreamRec := fun id =>
                  if id = streamId then some { stream with withdrawn := vested }
                  else s1.streams id
                let s2 : ChainState := { s1 with streams := newStreams }
                (.ok available, s2)
          else (.error .StreamDepleted, s)
        else (.error .StreamNotActive, s)
      else (.error .NotRecipient, s)

/-- Embedding of `cancel-stream`.  Computes `vested`,
`recipient-amount = vested - withdrawn` and `sender-refund = total - vested`,
checks sender and active, performs the two guarded escrow-out transfers,
and stores `active := false, withdrawn := vested`.  A failure of the
second transfer leaves the balance effect of the first in the returned
state, mirroring the source's sequential `try!` calls; no ledger-map or
nonce write precedes any failure point. -/
def cancelStream (s : ChainState) (txSender : Principal) (streamId : Nat) :
    Except ClarErr CancelResult × ChainState :=
  match s.streams streamId with
  | none => (.error .StreamNotFound, s)
  | some stream =>
      let vested := calculateVestedAmount s streamId
      let recipientAmount := vested - stream.withdrawn
      let senderRefund := stream.totalAmount - vested
      if txSender = stream.sender then
        if stream.active then
          match (if 0 < recipientAmount then
                   transferSbtcFromEscrow s.balances recipientAmount stream.recipient
                 else .ok s.balances) with
          | .error e => (.error e, s)
          | .ok b1 =>
              match (if 0 < senderRefund then
                       transferSbtcFromEscrow b1 senderRefund stream.sender
                     else .ok b1) with
              | .error e => (.error e, { s with balances := b1 })
              | .ok b2 =>
                  let s1 : ChainState := { s with balances := b2 }
                  let newStreams : Nat → Option StreamRec := fun id =>
                    if id = streamId then
                      some { stream with active := false, withdrawn := vested }
                    else s1.streams id
                  let s2 : ChainState := { s1 with streams := newStreams }
                  (.ok { recipientReceived := recipientAmount,
                         senderRefunded := senderRefund }, s2)
        else (.error .StreamNotActive, s)
      else (.error .NotSender, s)

/-- Embedding of the read-only `get-withdrawable`: `(ok u0)` for a
missing stream, otherwise `(ok (- vested withdrawn))`; note that it
never reads the `active` flag. -/
def getWithdrawable (s : ChainState) (streamId : Nat) : Except ClarErr Nat :=
  match s.streams streamId with
  | none => .ok 0
  | some stream => .ok (calculateVestedAmount s streamId - stream.withdrawn)

/-- The empty ledger over an arbitrary initial block height and token
balance table: no streams, nonce `u0`, no index entries. -/
def initialState (bh : Nat) (bal : Principal → Nat) : ChainState where
  blockHeight := bh
  streamNonce := 0
  streams := fun _ => none
  senderStreams := fun _ => none
  recipientStreams := fun _ => none
  balances := bal

/-- One observable transition of the ledger: block height advancing
(non-decreasing), externally caused token-balance changes, or one
successful public operation.  A failed public call changes nothing
on-chain and hence contributes no step. -/
inductive Step : ChainState → ChainState → Prop where
  | tick (s : ChainState) (n : Nat) :
      Step s { s with blockHeight := s.blockHeight + n }
  | extBalances (s : ChainState) (b : Principal → Nat) :
      Step s { s with balances := b }
  | create (s : ChainState) (snd rcp : Principal) (amt dur r : Nat)
      (s' : ChainState) : createStream s snd rcp amt dur = (.ok r, s') →
      Step s s'
  | withdrawOp (s : ChainState) (caller : Principal) (id r : Nat)
      (s' : ChainState) : withdraw s caller id = (.ok r, s') →
      Step s s'
  | cancelOp (s : ChainState) (caller : Principal) (id : Nat)
      (r : CancelResult) (s' : ChainState) :
      cancelStream s caller id = (.ok r, s') → Step s s'

/-- States reachable from an empty ledger by ledger operations at
non-decreasing block heights. -/
inductive Reachable : ChainState → Prop where
  | base (bh : Nat) (bal : Principal → Nat) : Reachable (initialState bh bal)
  | step {s s' : ChainState} : Reachable s → Step s s' → Reachable s'

/-- Inductive invariant of the sBTC ledger: ids at or above the nonce
are unused, and every stored record has `withdrawn` within
`[0, total]`, a positive duration, and `withdrawn` at most the amount
vested at the current block. -/
def Inv (s : ChainState) : Prop :=
  (∀ id, s.streamNonce ≤ id → s.streams id = none) ∧
  (∀ id st, s.streams id = some st →
    st.withdrawn ≤ st.totalAmount ∧ st.startBlock < st.endBlock ∧
    st.withdrawn ≤ vestedCalc st.totalAmount st.startBlock st.endBlock s.blockHeight)

/-- The ledger-state components named by the atomicity requirement:
the stream-record map, the nonce counter, and both reverse indexes.
Token balances are deliberately not included. -/
def LedgerUnchanged (t s : ChainState) : Prop :=
  t.streams = s.streams ∧ t.streamNonce = s.streamNonce ∧
  t.senderStreams = s.senderStreams ∧ t.recipientStreams = s.recipientStreams

/-- One more than the largest value of Clarity's 128-bit `uint` type:
an arithmetic result below this bound fits the width. -/
def uintWidth : Nat := 2 ^ 128

/-- The intermediate product `(* total (- current start))` formed by
`calculate-vested-amount` before it divides by `(- end start)`. -/
def vestedIntermediate (total start now : Nat) : Nat := total * (now - start)

/-! ### Concrete fixtures used by counterexamples and witnesses -/

/-- Balance table where principal 1 holds 100 token units. -/
def exBal : Principal → Nat := fun p => if p = 1 then 100 else 0

/-- State after principal 1 creates a 100-unit, 100-block stream to
principal 2 at block 0. -/
def exS1 : ChainState := (createStream (initialState 0 exBal) 1 2 100 100).2

/-- `exS1` with the chain advanced to block 25. -/
def exS2 : ChainState := { exS1 with blockHeight := 25 }

/-- State after principal 2 withdraws from stream 0 at block 25. -/
def exS3 : ChainState := (withdraw exS2 2 0).2

/-- `exS3` with the chain advanced to block 50. -/
def exS4 : ChainState := { exS3 with blockHeight := 50 }

/-- State after principal 1 cancels stream 0 at block 50. -/
def exCancelled : ChainState := (cancelStream exS4 1 0).2

/-- Balance table where principal 1 holds exactly 1 token unit. -/
def exBal1 : Principal → Nat := fun p => if p = 1 then 1 else 0

/-- State after principal 1 creates a 1-unit, 100-block stream to
principal 2 at block 0. -/
def exT1 : ChainState := (createStream (initialState 0 exBal1) 1 2 1 100).2

/-- `exT1` with the chain advanced to block 50. -/
def exT2 : ChainState := { exT1 with blockHeight := 50 }

/-- State after principal 1 cancels the 1-unit stream at block 50. -/
def exT3 : ChainState := (cancelStream exT2 1 0).2

/-- `exT3` with the chain advanced to block 51. -/
def exT4 : ChainState := { exT3 with blockHeight := 51 }

/-- `exT3` with the chain advanced to block 100, the stream's end. -/
def exT5 : ChainState := { exT3 with blockHeight := 100 }

/-- A state whose sender index for principal 1 and recipient index for
principal 2 are already at the 50-entry capacity. -/
def exFull : ChainState where
  blockHeight := 5
  streamNonce := 50
  streams := fun _ => none
  senderStreams := fun p => if p = 1 then some (List.range 50) else none
  recipientStreams := fun p => if p = 2 then some (List.range 50) else none
  balances := fun p => if p = 1 then 100 else 0

/-! ### Characterizations of successful operations -/

theorem withdraw_ok_elim {s : ChainState} {caller : Principal} {id r : Nat}
    {s' : ChainState} (h : withdraw s caller id = (.ok r, s')) :
    ∃ st, s.streams id = some st ∧ caller = st.recipient ∧ st.active = true ∧
      r = calculateVestedAmount s id - st.withdrawn ∧ 0 < r ∧
      s'.blockHeight = s.blockHeight ∧ s'.streamNonce = s.streamNonce ∧
      s'.senderStreams = s.senderStreams ∧
      s'.recipientStreams = s.recipientStreams ∧
      s'.streams = fun i => if i = id then
        some { st with withdrawn := calculateVestedAmount s id }
      else s.streams i := by
  unfold withdraw at h
  split at h
  · simp at h
  · rename_i st hst
    dsimp only at h
    split_ifs at h with h1 h2 h3
    · split at h
      · simp at h
      · simp only [Prod.mk.injEq, Except.ok.injEq] at h
        obtain ⟨hr, hs'⟩ := h
        refine ⟨st, hst, h1, h2, hr.symm, hr ▸ h3, ?_⟩
        subst hs'
        exact ⟨rfl, rfl, rfl, rfl, rfl⟩
    all_goals simp at h

theorem cancelStream_ok_elim {s : ChainState} {caller : Principal} {id : Nat}
    {r : CancelResult} {s' : ChainState}
    (h : cancelStream s caller id = (.ok r, s')) :
    ∃ st, s.streams id = some st ∧ caller = st.sender ∧ st.active = true ∧
      r = { recipientReceived := calculateVestedAmount s id - st.withdrawn,
            senderRefunded := st.totalAmount - calculateVestedAmount s id } ∧
      s'.blockHeight = s.blockHeight ∧ s'.streamNonce = s.streamNonce ∧
      s'.senderStreams = s.senderStreams ∧
      s'.recipientStreams = s.recipientStreams ∧
      s'.streams = fun i => if i = id then
        some { st with active := false, withdrawn := calculateVestedAmount s id }
      else s.streams i := by
  unfold cancelStream at h
  split at h
  · simp at h
  · rename_i st hst
    dsimp only at h
    split_ifs at h with h1 h2
    · split at h
      · simp at h
      · split at h
        · simp at h
        · simp only [Prod.mk.injEq, Except.ok.injEq] at h
          obtain ⟨hr, hs'⟩ := h
          refine ⟨st, hst, h1, h2, hr.symm, ?_⟩
          subst hs'
          exact ⟨rfl, rfl, rfl, rfl, rfl⟩
    · dsimp only at h
      split at h
      · simp at h
      · simp only [Prod.mk.injEq, Except.ok.injEq] at h
        obtain ⟨hr, hs'⟩ := h
        refine ⟨st, hst, h1, h2, hr.symm, ?_⟩
        subst hs'
        exact ⟨rfl, rfl, rfl, rfl, rfl⟩
    · dsimp only at h
      split at h
      · simp at h
      · simp only [Prod.mk.injEq, Except.ok.injEq] at h
        obtain ⟨hr, hs'⟩ := h
        refine ⟨st, hst, h1, h2, hr.symm, ?_⟩
        subst hs'
        exact ⟨rfl, rfl, rfl, rfl, rfl⟩
    · dsimp only at h
      simp only [Prod.mk.injEq, Except.ok.injEq] at h
      obtain ⟨hr, hs'⟩ := h
      refine ⟨st, hst, h1, h2, hr.symm, ?_⟩
      subst hs'
      exact ⟨rfl, rfl, rfl, rfl, rfl⟩
    all_goals simp at h

theorem createStream_ok_elim {s : ChainState} {snd rcp : Principal}
    {amt dur r : Nat} {s' : ChainState}
    (h : createStream s snd rcp amt dur = (.ok r, s')) :
    r = s.streamNonce ∧ 0 < amt ∧ 0 < dur ∧
      s'.blockHeight = s.blockHeight ∧
      s'.streamNonce = s.streamNonce + 1 ∧
      s'.streams = fun i => if i = s.streamNonce then
        some { sender := snd, recipient := rcp, totalAmount := amt,
               withdrawn := 0, startBlock := s.blockHeight,
               endBlock := s.blockHeight + dur, active := true }
      else s.streams i := by
  unfold createStream at h
  dsimp only at h
  split_ifs at h with h1 h2
  · split at h
    · simp at h
    · rename_i b1 hb1
      simp only [Prod.mk.injEq, Except.ok.injEq] at h
      obtain ⟨hr, hs'⟩ := h
      refine ⟨hr.symm, h1, h2, ?_⟩
      subst hs'
      exact ⟨rfl, rfl, rfl⟩
  all_goals simp at h

/-! ### Vesting-math lemmas -/

theorem vestedCalc_le_total (total start endB now : Nat) :
    vestedCalc total start endB now ≤ total := by
  unfold vestedCalc
  split
  · exact Nat.zero_le _
  · split
    · exact le_rfl
    · rename_i h1 h2
      have hse : 0 < endB - start := by omega
      calc total * (now - start) / (endB - start)
          ≤ total * (endB - start) / (endB - start) :=
            Nat.div_le_div_right (Nat.mul_le_mul_left _ (by omega))
        _ = total := Nat.mul_div_cancel total hse

theorem vestedCalc_mono (total start endB : Nat) {n1 n2 : Nat} (h : n1 ≤ n2) :
    vestedCalc total start endB n1 ≤ vestedCalc total start endB n2 := by
  unfold vestedCalc
  by_cases ha : n1 ≤ start
  · rw [if_pos ha]
    exact Nat.zero_le _
  · rw [if_neg ha, if_neg (by omega : ¬ n2 ≤ start)]
    by_cases hb : endB ≤ n1
    · rw [if_pos hb, if_pos (by omega : endB ≤ n2)]
    · rw [if_neg hb]
      by_cases hc : endB ≤ n2
      · rw [if_pos hc]
        have hse : 0 < endB - start := by omega
        calc total * (n1 - start) / (endB - start)
            ≤ total * (endB - start) / (endB - start) :=
              Nat.div_le_div_right (Nat.mul_le_mul_left _ (by omega))
          _ = total := Nat.mul_div_cancel total hse
      · rw [if_neg hc]
        exact Nat.div_le_div_right (Nat.mul_le_mul_left _ (by omega))

/-- In the interpolation branch the vested value is strictly below
`total` whenever `total` is positive. -/
theorem vestedCalc_lt_total (total start endB now : Nat) (ht : 0 < total)
    (h1 : start < now) (h2 : now < endB) :
    vestedCalc total start endB now < total := by
  unfold vestedCalc
  rw [if_neg (by omega), if_neg (by omega)]
  have h3 : total * (now - start) < total * (endB - start) :=
    mul_lt_mul_of_pos_left (by omega) ht
  exact Nat.div_lt_of_lt_mul
    (lt_of_lt_of_le h3 (le_of_eq (Nat.mul_comm _ _)))

/-! ### Invariant-preservation lemmas -/

theorem inv_initial (bh : Nat) (bal : Principal → Nat) :
    Inv (initialState bh bal) := by
  constructor
  · intro id _
    rfl
  · intro id st h
    exact Option.noConfusion h

/-- Looking up a stream record turns `calculateVestedAmount` into the
pure vesting formula on its fields. -/
theorem calculateVestedAmount_eq {s : ChainState} {id : Nat} {st : StreamRec}
    (h : s.streams id = some st) :
    calculateVestedAmount s id =
      vestedCalc st.totalAmount st.startBlock st.endBlock s.blockHeight := by
  unfold calculateVestedAmount
  rw [h]

theorem inv_step {s s' : ChainState} (hinv : Inv s) (hstep : Step s s') :
    Inv s' := by
  obtain ⟨hn, hs⟩ := hinv
  cases hstep with
  | tick n =>
      refine ⟨hn, ?_⟩
      intro id st h
      obtain ⟨h1, h2, h3⟩ := hs id st h
      exact ⟨h1, h2, le_trans h3 (vestedCalc_mono _ _ _ (Nat.le_add_right _ _))⟩
  | extBalances b => exact ⟨hn, hs⟩
  | create snd rcp amt dur r s2 hc =>
      obtain ⟨hr, hamt, hdur, hbh, hnonce, hstreams⟩ := createStream_ok_elim hc
      constructor
      · intro id hid
        rw [hnonce] at hid
        simp only [hstreams]
        rw [if_neg (by omega)]
        exact hn id (by omega)
      · intro id st h
        simp only [hstreams] at h
        by_cases hid : id = s.streamNonce
        · rw [if_pos hid] at h
          injection h with h
          subst h
          refine ⟨Nat.zero_le _, ?_, Nat.zero_le _⟩
          dsimp only
          omega
        · rw [if_neg hid] at h
          obtain ⟨h1, h2, h3⟩ := hs id st h
          rw [hbh]
          exact ⟨h1, h2, h3⟩
  | withdrawOp caller id0 r s2 hw =>
      obtain ⟨st0, hst0, _, _, _, _, hbh, hnonce, _, _, hstreams⟩ :=
        withdraw_ok_elim hw
      have hlt : id0 < s.streamNonce := by
        by_contra hge
        rw [hn id0 (by omega)] at hst0
        exact Option.noConfusion hst0
      constructor
      · intro id hid
        rw [hnonce] at hid
        simp only [hstreams]
        rw [if_neg (by omega)]
        exact hn id hid
      · intro id st h
        simp only [hstreams] at h
        by_cases hid : id = id0
        · rw [if_pos hid] at h
          injection h with h
          subst h
          obtain ⟨h1, h2, h3⟩ := hs id0 st0 hst0
          rw [calculateVestedAmount_eq hst0]
          refine ⟨vestedCalc_le_total _ _ _ _, h2, ?_⟩
          rw [hbh]
        · rw [if_neg hid] at h
          obtain ⟨h1, h2, h3⟩ := hs id st h
          rw [hbh]
          exact ⟨h1, h2, h3⟩
  | cancelOp caller id0 r s2 hc =>
      obtain ⟨st0, hst0, _, _, _, hbh, hnonce, _, _, hstreams⟩ :=
        cancelStream_ok_elim hc
      have hlt : id0 < s.streamNonce := by
        by_contra hge
        rw [hn id0 (by omega)] at hst0
        exact Option.noConfusion hst0
      constructor
      · intro id hid
        rw [hnonce] at hid
        simp only [hstreams]
        rw [if_neg (by omega)]
        exact hn id hid
      · intro id st h
        simp only [hstreams] at h
        by_cases hid : id = id0
        · rw [if_pos hid] at h
          injection h with h
          subst h
          obtain ⟨h1, h2, h3⟩ := hs id0 st0 hst0
          rw [calculateVestedAmount_eq hst0]
          refine ⟨vestedCalc_le_total _ _ _ _, h2, ?_⟩
          rw [hbh]
        · rw [if_neg hid] at h
          obtain ⟨h1, h2, h3⟩ := hs id st h
          rw [hbh]
          exact ⟨h1, h2, h3⟩

theorem reachable_inv {s : ChainState} (h : Reachable s) : Inv s := by
  induction h with
  | base bh bal => exact inv_initial bh bal
  | step _ hstep ih => exact inv_step ih hstep

/-! ### Claims -/

/-- C3: for every `(total, start, end, now)` with `start < end`, the
vested-amount computation returns 0 when `now ≤ start`, `total` when
`now ≥ end`, and `floor(total * (now - start) / (end - start))`
otherwise. -/
theorem C3_vested_formula (total start endB now : Nat) (h : start < endB) :
    (now ≤ start → vestedCalc total start endB now = 0) ∧
    (endB ≤ now → vestedCalc total start endB now = total) ∧
    (start < now → now < endB →
      vestedCalc total start endB now = total * (now - start) / (endB - start)) := by
  refine ⟨?_, ?_, ?_⟩
  · intro h1
    rw [vestedCalc, if_pos h1]
  · intro h1
    rw [vestedCalc, if_neg (by omega), if_pos h1]
  · intro h1 h2
    rw [vestedCalc, if_neg (by omega), if_neg (by omega)]

theorem C3_vested_formula_witness :
    ((5 : Nat) ≤ 0 → vestedCalc 7 0 10 5 = 0) ∧
    ((10 : Nat) ≤ 5 → vestedCalc 7 0 10 5 = 7) ∧
    ((0 : Nat) < 5 → 5 < 10 → vestedCalc 7 0 10 5 = 7 * (5 - 0) / (10 - 0)) :=
  C3_vested_formula 7 0 10 5 (by decide)

/-- C7: for every `(total, start, end)` with `start < end`, the vested
amount is monotonically non-decreasing in `now` and bounded within
`[0, total]`. -/
theorem C7_vested_monotone_bounded (total start endB : Nat) (h : start < endB) :
    (∀ now1 now2, now1 ≤ now2 →
      vestedCalc total start endB now1 ≤ vestedCalc total start endB now2) ∧
    (∀ now, 0 ≤ vestedCalc total start endB now ∧
      vestedCalc total start endB now ≤ total) :=
  ⟨fun _ _ hle => vestedCalc_mono total start endB hle,
   fun now => ⟨Nat.zero_le _, vestedCalc_le_total total start endB now⟩⟩

theorem C7_vested_monotone_bounded_witness :
    (∀ now1 now2, now1 ≤ now2 →
      vestedCalc 7 0 10 now1 ≤ vestedCalc 7 0 10 now2) ∧
    (∀ now, 0 ≤ vestedCalc 7 0 10 now ∧ vestedCalc 7 0 10 now ≤ 7) :=
  C7_vested_monotone_bounded 7 0 10 (by decide)

/-- C9 counterexample: the claim that the intermediate product
`total * (now - start)` always fits the 128-bit `uint` width fails.
The stream below is valid — positive total and duration, both inside
the `uint` range, `start < end` — and `now` lies strictly inside the
vesting window, so the dividing branch runs; yet the product equals
`2 ^ 128`, which does not fit the width, and the Clarity runtime
aborts the multiplication. -/
theorem C9_counterexample :
    (0 : Nat) < 2 ^ 64 ∧ (0 : Nat) < 2 ^ 64 + 1 ∧
    (2 : Nat) ^ 64 < uintWidth ∧ (2 : Nat) ^ 64 + 1 < uintWidth ∧
    (0 : Nat) < 2 ^ 64 ∧ (2 : Nat) ^ 64 < 2 ^ 64 + 1 ∧
    ¬ vestedIntermediate (2 ^ 64) 0 (2 ^ 64) < uintWidth := by
  refine ⟨by norm_num, by norm_num, ?_, ?_, by norm_num, by norm_num, ?_⟩
  · rw [uintWidth]
    norm_num
  · rw [uintWidth]
    norm_num
  · rw [vestedIntermediate, uintWidth]
    norm_num

/-- C9 amended: the interpolation branch's intermediate product is
bounded by `total * (end - start)`, so whenever that bound fits the
128-bit width — the spec's own sufficient condition — the computation
completes without an arithmetic fault. -/
theorem C9_amended_product_fits (total start endB now : Nat) (h : start < endB)
    (hfit : total * (endB - start) < uintWidth)
    (h1 : start < now) (h2 : now < endB) :
    vestedIntermediate total start now < uintWidth := by
  rw [vestedIntermediate]
  calc total * (now - start) ≤ total * (endB - start) :=
        Nat.mul_le_mul_left _ (by omega)
    _ < uintWidth := hfit

theorem C9_amended_product_fits_witness :
    vestedIntermediate 100 0 50 < uintWidth :=
  C9_amended_product_fits 100 0 100 50 (by decide)
    (by rw [uintWidth]; norm_num) (by decide) (by decide)

/-- C5: every error return of create, withdraw or cancel leaves the
stream-record map, the nonce counter and both reverse indexes exactly
as before the call; in particular `create` with `total_amount = 0`
always fails with `InvalidAmount`, creates no record and does not
advance the counter. -/
theorem C5_error_atomicity :
    (∀ s snd rcp amt dur e s',
      createStream s snd rcp amt dur = (.error e, s') → LedgerUnchanged s' s) ∧
    (∀ s caller id e s',
      withdraw s caller id = (.error e, s') → LedgerUnchanged s' s) ∧
    (∀ s caller id e s',
      cancelStream s caller id = (.error e, s') → LedgerUnchanged s' s) ∧
    (∀ s snd rcp dur,
      (createStream s snd rcp 0 dur).1 = .error .InvalidAmount ∧
      LedgerUnchanged (createStream s snd rcp 0 dur).2 s) := by
  refine ⟨?_, ?_, ?_, ?_⟩
  · intro s snd rcp amt dur e s' h
    unfold createStream at h
    dsimp only at h
    split_ifs at h with h1 h2
    · split at h
      · injection h with hfst hsnd
        subst hsnd
        exact ⟨rfl, rfl, rfl, rfl⟩
      · simp at h
    · injection h with hfst hsnd
      subst hsnd
      exact ⟨rfl, rfl, rfl, rfl⟩
    · injection h with hfst hsnd
      subst hsnd
      exact ⟨rfl, rfl, rfl, rfl⟩
  · intro s caller id e s' h
    unfold withdraw at h
    split at h
    · injection h with hfst hsnd
      subst hsnd
      exact ⟨rfl, rfl, rfl, rfl⟩
    · dsimp only at h
      split_ifs at h with h1 h2 h3
      · split at h
        · injection h with hfst hsnd
          subst hsnd
          exact ⟨rfl, rfl, rfl, rfl⟩
        · simp at h
      all_goals
        injection h with hfst hsnd
        subst hsnd
        exact ⟨rfl, rfl, rfl, rfl⟩
  · intro s caller id e s' h
    unfold cancelStream at h
    split at h
    · injection h with hfst hsnd
      subst hsnd
      exact ⟨rfl, rfl, rfl, rfl⟩
    · dsimp only at h
      split_ifs at h with h1 h2
      · split at h
        · injection h with hfst hsnd
          subst hsnd
          exact ⟨rfl, rfl, rfl, rfl⟩
        · split at h
          · injection h with hfst hsnd
            subst hsnd
            exact ⟨rfl, rfl, rfl, rfl⟩
          · simp at h
      · split at h
        · injection h with hfst hsnd
          subst hsnd
          exact ⟨rfl, rfl, rfl, rfl⟩
        · simp at h
      · dsimp only at h
        split at h
        · injection h with hfst hsnd
          subst hsnd
          exact ⟨rfl, rfl, rfl, rfl⟩
        · simp at h
      · simp at h
      · injection h with hfst hsnd
        subst hsnd
        exact ⟨rfl, rfl, rfl, rfl⟩
      · injection h with hfst hsnd
        subst hsnd
        exact ⟨rfl, rfl, rfl, rfl⟩
  · intro s snd rcp dur
    exact ⟨rfl, rfl, rfl, rfl, rfl⟩

theorem C5_error_atomicity_witness :
    ((createStream (initialState 0 exBal) 1 2 0 10).1 = .error .InvalidAmount ∧
      LedgerUnchanged (createStream (initialState 0 exBal) 1 2 0 10).2
        (initialState 0 exBal)) ∧
    LedgerUnchanged (initialState 0 exBal) (initialState 0 exBal) :=
  ⟨C5_error_atomicity.2.2.2 (initialState 0 exBal) 1 2 10,
   C5_error_atomicity.2.1 (initialState 0 exBal) 2 0 .StreamNotFound
     (initialState 0 exBal) rfl⟩

/-- C4: a successful withdraw by the recipient of an active stream
returns exactly `vested - withdrawn` (as of the call's block), which is
what `get-withdrawable` reports immediately before the call, and the
stored record's withdrawn field becomes the absolute vested value. -/
theorem C4_withdraw_exact (s : ChainState) (id : Nat) (st : StreamRec)
    (hst : s.streams id = some st) (hact : st.active = true)
    (hpos : 0 < calculateVestedAmount s id - st.withdrawn)
    (hbal : calculateVestedAmount s id - st.withdrawn ≤
      s.balances contractPrincipal) :
    (withdraw s st.recipient id).1 =
      .ok (calculateVestedAmount s id - st.withdrawn) ∧
    getWithdrawable s id = .ok (calculateVestedAmount s id - st.withdrawn) ∧
    (withdraw s st.recipient id).2.streams id =
      some { st with withdrawn := calculateVestedAmount s id } := by
  have hw : withdraw s st.recipient id =
      (.ok (calculateVestedAmount s id - st.withdrawn),
       (withdraw s st.recipient id).2) := by
    unfold withdraw
    rw [hst]
    dsimp only
    rw [if_pos rfl, if_pos hact, if_pos hpos]
    unfold transferSbtcFromEscrow sbtcTransfer
    rw [if_neg (by omega)]
  refine ⟨?_, ?_, ?_⟩
  · rw [hw]
  · unfold getWithdrawable
    rw [hst]
  · unfold withdraw
    rw [hst]
    dsimp only
    rw [if_pos rfl, if_pos hact, if_pos hpos]
    unfold transferSbtcFromEscrow sbtcTransfer
    rw [if_neg (by omega)]
    dsimp only
    rw [if_pos rfl]

theorem C4_withdraw_exact_witness :
    (withdraw exS2 2 0).1 = .ok 25 ∧
    getWithdrawable exS2 0 = .ok 25 ∧
    (withdraw exS2 2 0).2.streams 0 =
      some { sender := 1, recipient := 2, totalAmount := 100, withdrawn := 25,
             startBlock := 0, endBlock := 100, active := true } :=
  C4_withdraw_exact exS2 0
    { sender := 1, recipient := 2, totalAmount := 100, withdrawn := 0,
      startBlock := 0, endBlock := 100, active := true }
    rfl rfl (by decide) (by decide)

/-- C1 counterexample: principal 1 creates a 100-unit, 100-block
stream to principal 2 at block 0; principal 2 withdraws 25 at block
25; principal 1 cancels at block 50, where the vested amount is 50.
The cancel succeeds and returns `{recipient_received := 25,
sender_refunded := 50}`: the recipient part is `vested - withdrawn`,
not the vested amount 50, and the pair sums to 75, not
`total_amount = 100`. -/
theorem C1_cancel_claim_counterexample :
    Reachable exS4 ∧
    exS4.streams 0 = some { sender := 1, recipient := 2, totalAmount := 100,
                            withdrawn := 25, startBlock := 0, endBlock := 100,
                            active := true } ∧
    calculateVestedAmount exS4 0 = 50 ∧
    (cancelStream exS4 1 0).1 =
      .ok { recipientReceived := 25, senderRefunded := 50 } ∧
    ¬ ((25 : Nat) = 50 ∧ (25 : Nat) + 50 = 100) := by
  have r1 : Reachable exS1 :=
    Reachable.step (Reachable.base 0 exBal)
      (Step.create (initialState 0 exBal) 1 2 100 100 0 exS1 rfl)
  have r2 : Reachable exS2 := Reachable.step r1 (Step.tick exS1 25)
  have r3 : Reachable exS3 :=
    Reachable.step r2 (Step.withdrawOp exS2 2 0 25 exS3 rfl)
  have r4 : Reachable exS4 := Reachable.step r3 (Step.tick exS3 25)
  exact ⟨r4, rfl, rfl, rfl, by decide⟩

/-- C1 amended: a successful cancel returns
`recipient_received = vested - withdrawn` and
`sender_refunded = total - vested`, so the pair sums to
`total - withdrawn`; in the claim's scenario of no prior withdrawal
(`withdrawn = 0`) this yields `recipient_received = vested` and an
exact split of `total_amount`. -/
theorem C1_cancel_split_amended (s : ChainState) (id : Nat) (st : StreamRec)
    (hst : s.streams id = some st) (hact : st.active = true)
    (hwv : st.withdrawn ≤ calculateVestedAmount s id)
    (hvt : calculateVestedAmount s id ≤ st.totalAmount)
    (hrcp : st.recipient ≠ contractPrincipal)
    (hbal : st.totalAmount - st.withdrawn ≤ s.balances contractPrincipal) :
    (cancelStream s st.sender id).1 =
      .ok { recipientReceived := calculateVestedAmount s id - st.withdrawn,
            senderRefunded := st.totalAmount - calculateVestedAmount s id } ∧
    (calculateVestedAmount s id - st.withdrawn) +
        (st.totalAmount - calculateVestedAmount s id) =
      st.totalAmount - st.withdrawn ∧
    (st.withdrawn = 0 →
      calculateVestedAmount s id - st.withdrawn = calculateVestedAmount s id ∧
      (calculateVestedAmount s id - st.withdrawn) +
          (st.totalAmount - calculateVestedAmount s id) = st.totalAmount) := by
  refine ⟨?_, by omega, fun h0 => by omega⟩
  unfold cancelStream
  rw [hst]
  dsimp only
  rw [if_pos rfl, if_pos hact]
  unfold transferSbtcFromEscrow sbtcTransfer
  by_cases hra : 0 < calculateVestedAmount s id - st.withdrawn
  · rw [if_pos hra, if_neg (by omega)]
    dsimp only
    by_cases hsr : 0 < st.totalAmount - calculateVestedAmount s id
    · rw [if_pos hsr, if_neg (Ne.symm hrcp), if_pos rfl, if_neg (by omega)]
    · rw [if_neg hsr]
  · rw [if_neg hra]
    dsimp only
    by_cases hsr : 0 < st.totalAmount - calculateVestedAmount s id
    · rw [if_pos hsr, if_neg (by omega)]
    · rw [if_neg hsr]

theorem C1_cancel_split_amended_witness :
    (cancelStream exS4 1 0).1 =
      .ok { recipientReceived := 25, senderRefunded := 50 } ∧
    (25 : Nat) + 50 = 75 ∧
    ((25 : Nat) = 0 → (25 : Nat) = 50 ∧ (25 : Nat) + 50 = 100) :=
  C1_cancel_split_amended exS4 0
    { sender := 1, recipient := 2, totalAmount := 100, withdrawn := 25,
      startBlock := 0, endBlock := 100, active := true }
    rfl rfl (by decide) (by decide) (by decide) (by decide)

/-- C10 counterexample: a 1-unit, 100-block stream created at block 0
is cancelled at block 50 (vested is 0 there, so `withdrawn` stays 0 and
the whole unit is refunded).  Block 51 lies strictly after the
cancellation block and before `end_block = 100`, yet `get-withdrawable`
returns 0 — `floor(1 * 51 / 100) = 0` — not a strictly positive value.
The claim's universally-positive part fails on floor-division plateaus. -/
theorem C10_withdrawable_claim_counterexample :
    (cancelStream exT2 1 0).1 =
      .ok { recipientReceived := 0, senderRefunded := 1 } ∧
    exT3.streams 0 = some { sender := 1, recipient := 2, totalAmount := 1,
                            withdrawn := 0, startBlock := 0, endBlock := 100,
                            active := false } ∧
    (50 : Nat) < 51 ∧ (51 : Nat) ≤ 100 ∧
    getWithdrawable exT4 0 = .ok 0 ∧
    ¬ (0 : Nat) < 0 :=
  ⟨rfl, rfl, by decide, by decide, rfl, by decide⟩

/-- C10 amended: `get-withdrawable` never consults the `active` flag —
for a cancelled stream it still reports `vested(now) - withdrawn`; at
`end_block` (for a stream cancelled before it finished vesting, so
`withdrawn < total`) that report is strictly positive, even though
every withdraw attempt by the recipient fails with `StreamNotActive`
and the amount can never be withdrawn. -/
theorem C10_withdrawable_ignores_active (s : ChainState) (id : Nat)
    (st : StreamRec) (hst : s.streams id = some st) (hact : st.active = false)
    (hse : st.startBlock < st.endBlock)
    (hw : st.withdrawn < st.totalAmount) (hbh : st.endBlock ≤ s.blockHeight) :
    getWithdrawable s id = .ok (calculateVestedAmount s id - st.withdrawn) ∧
    0 < calculateVestedAmount s id - st.withdrawn ∧
    (withdraw s st.recipient id).1 = .error .StreamNotActive := by
  refine ⟨?_, ?_, ?_⟩
  · unfold getWithdrawable
    rw [hst]
  · rw [calculateVestedAmount_eq hst]
    unfold vestedCalc
    by_cases hss : s.blockHeight ≤ st.startBlock
    · rw [if_pos hss]
      omega
    · rw [if_neg hss, if_pos hbh]
      omega
  · unfold withdraw
    rw [hst]
    dsimp only
    rw [if_pos rfl, hact]
    rw [if_neg (by decide)]

theorem C10_withdrawable_ignores_active_witness :
    getWithdrawable exT5 0 = .ok (calculateVestedAmount exT5 0 - 0) ∧
    0 < calculateVestedAmount exT5 0 - 0 ∧
    (withdraw exT5 2 0).1 = .error .StreamNotActive :=
  C10_withdrawable_ignores_active exT5 0
    { sender := 1, recipient := 2, totalAmount := 1, withdrawn := 0,
      startBlock := 0, endBlock := 100, active := false }
    rfl rfl (by decide) (by decide) (by decide)

/-- C8: every create with valid inputs and a funded sender succeeds —
the record is stored under the fresh id — and whenever the sender's
index list already holds 50 ids it is left exactly as it was (the new
id is silently dropped), and likewise, independently, whenever the
recipient's index list already holds 50 ids. -/
theorem C8_index_overflow_drops_append (s : ChainState) (snd rcp : Principal)
    (amt dur : Nat)
    (hamt : 0 < amt) (hdur : 0 < dur) (hbal : amt ≤ s.balances snd) :
    (createStream s snd rcp amt dur).1 = .ok s.streamNonce ∧
    (createStream s snd rcp amt dur).2.streams s.streamNonce =
      some { sender := snd, recipient := rcp, totalAmount := amt,
             withdrawn := 0, startBlock := s.blockHeight,
             endBlock := s.blockHeight + dur, active := true } ∧
    (∀ ls, s.senderStreams snd = some ls → ls.length = 50 →
      (createStream s snd rcp amt dur).2.senderStreams snd = some ls) ∧
    (∀ lr, s.recipientStreams rcp = some lr → lr.length = 50 →
      (createStream s snd rcp amt dur).2.recipientStreams rcp = some lr) := by
  have hdrop : ∀ l : List Nat, l.length = 50 →
      addToList s.streamNonce l = l := by
    intro l hl
    unfold addToList
    rw [if_neg]
    simp [hl]
  refine ⟨?_, ?_, ?_, ?_⟩
  · unfold createStream
    dsimp only
    rw [if_pos hamt, if_pos hdur]
    unfold sbtcTransfer
    rw [if_neg (by omega)]
  · unfold createStream
    dsimp only
    rw [if_pos hamt, if_pos hdur]
    unfold sbtcTransfer
    rw [if_neg (by omega)]
    dsimp only
    rw [if_pos rfl]
  · intro ls hls hlen
    unfold createStream
    dsimp only
    rw [if_pos hamt, if_pos hdur]
    unfold sbtcTransfer
    rw [if_neg (by omega)]
    dsimp only
    rw [if_pos rfl, hls]
    dsimp only [Option.getD]
    rw [hdrop ls hlen]
  · intro lr hlr hlenr
    unfold createStream
    dsimp only
    rw [if_pos hamt, if_pos hdur]
    unfold sbtcTransfer
    rw [if_neg (by omega)]
    dsimp only
    rw [if_pos rfl, hlr]
    dsimp only [Option.getD]
    rw [hdrop lr hlenr]

theorem C8_index_overflow_drops_append_witness :
    (createStream exFull 1 3 100 10).1 = .ok 50 ∧
    (createStream exFull 1 3 100 10).2.streams 50 =
      some { sender := 1, recipient := 3, totalAmount := 100, withdrawn := 0,
             startBlock := 5, endBlock := 15, active := true } ∧
    (∀ ls, exFull.senderStreams 1 = some ls → ls.length = 50 →
      (createStream exFull 1 3 100 10).2.senderStreams 1 = some ls) ∧
    (∀ lr, exFull.recipientStreams 3 = some lr → lr.length = 50 →
      (createStream exFull 1 3 100 10).2.recipientStreams 3 = some lr) :=
  C8_index_overflow_drops_append exFull 1 3 100 10
    (by decide) (by decide) (by decide)

/-- C2: on every state reachable from the empty ledger by
create/withdraw/cancel at non-decreasing block heights, every stored
record satisfies `0 ≤ withdrawn ≤ total_amount` and
`withdrawn ≤ vested(current block)`, and `withdrawn` never decreases
across any further operation. -/
theorem C2_withdrawn_invariants (s : ChainState) (hr : Reachable s) :
    (∀ id st, s.streams id = some st →
      0 ≤ st.withdrawn ∧ st.withdrawn ≤ st.totalAmount ∧
      st.withdrawn ≤
        vestedCalc st.totalAmount st.startBlock st.endBlock s.blockHeight) ∧
    (∀ s' id st st', Step s s' → s.streams id = some st →
      s'.streams id = some st' → st.withdrawn ≤ st'.withdrawn) := by
  obtain ⟨hn, hs⟩ := reachable_inv hr
  constructor
  · intro id st h
    obtain ⟨h1, h2, h3⟩ := hs id st h
    exact ⟨Nat.zero_le _, h1, h3⟩
  · intro s' id st st' hstep hst hst'
    cases hstep with
    | tick n =>
        dsimp only at hst'
        rw [hst] at hst'
        injection hst' with he
        exact le_of_eq (congrArg StreamRec.withdrawn he)
    | extBalances b =>
        dsimp only at hst'
        rw [hst] at hst'
        injection hst' with he
        exact le_of_eq (congrArg StreamRec.withdrawn he)
    | create snd rcp amt dur r s2 hc =>
        obtain ⟨_, _, _, _, _, hstreams⟩ := createStream_ok_elim hc
        simp only [hstreams] at hst'
        have hlt : id < s.streamNonce := by
          by_contra hge
          rw [hn id (by omega)] at hst
          exact Option.noConfusion hst
        rw [if_neg (by omega), hst] at hst'
        injection hst' with he
        exact le_of_eq (congrArg StreamRec.withdrawn he)
    | withdrawOp caller id0 r2 s2 hw =>
        obtain ⟨st0, hst0, _, _, hr2, hpos, _, _, _, _, hstreams⟩ :=
          withdraw_ok_elim hw
        simp only [hstreams] at hst'
        by_cases hid : id = id0
        · subst hid
          rw [hst] at hst0
          injection hst0 with he0
          subst he0
          rw [if_pos rfl] at hst'
          injection hst' with he
          rw [← he]
          dsimp only
          omega
        · rw [if_neg hid, hst] at hst'
          injection hst' with he
          exact le_of_eq (congrArg StreamRec.withdrawn he)
    | cancelOp caller id0 r2 s2 hc2 =>
        obtain ⟨st0, hst0, _, _, _, _, _, _, _, hstreams⟩ :=
          cancelStream_ok_elim hc2
        simp only [hstreams] at hst'
        by_cases hid : id = id0
        · subst hid
          rw [hst] at hst0
          injection hst0 with he0
          subst he0
          rw [if_pos rfl] at hst'
          injection hst' with he
          rw [← he]
          dsimp only
          obtain ⟨_, _, h3⟩ := hs id st hst
          rw [calculateVestedAmount_eq hst]
          exact h3
        · rw [if_neg hid, hst] at hst'
          injection hst' with he
          exact le_of_eq (congrArg StreamRec.withdrawn he)

theorem C2_withdrawn_invariants_witness :
    (∀ id st, exS1.streams id = some st →
      0 ≤ st.withdrawn ∧ st.withdrawn ≤ st.totalAmount ∧
      st.withdrawn ≤
        vestedCalc st.totalAmount st.startBlock st.endBlock exS1.blockHeight) ∧
    (∀ s' id st st', Step exS1 s' → exS1.streams id = some st →
      s'.streams id = some st' → st.withdrawn ≤ st'.withdrawn) :=
  C2_withdrawn_invariants exS1
    (Reachable.step (Reachable.base 0 exBal)
      (Step.create (initialState 0 exBal) 1 2 100 100 0 exS1 rfl))

/-- C6: once a stream is cancelled (`active = false`) on a reachable
state, every further ledger step keeps it inactive, a withdraw attempt
by its recipient fails with `StreamNotActive`, and a cancel attempt by
its sender also fails with `StreamNotActive`. -/
theorem C6_cancel_is_permanent (s : ChainState) (id : Nat) (st : StreamRec)
    (hr : Reachable s) (hst : s.streams id = some st)
    (hact : st.active = false) :
    (∀ s' st', Step s s' → s'.streams id = some st' → st'.active = false) ∧
    (withdraw s st.recipient id).1 = .error .StreamNotActive ∧
    (cancelStream s st.sender id).1 = .error .StreamNotActive := by
  obtain ⟨hn, hs⟩ := reachable_inv hr
  refine ⟨?_, ?_, ?_⟩
  · intro s' st' hstep hst'
    cases hstep with
    | tick n =>
        dsimp only at hst'
        rw [hst] at hst'
        injection hst' with he
        rw [← he]
        exact hact
    | extBalances b =>
        dsimp only at hst'
        rw [hst] at hst'
        injection hst' with he
        rw [← he]
        exact hact
    | create snd rcp amt dur r s2 hc =>
        obtain ⟨_, _, _, _, _, hstreams⟩ := createStream_ok_elim hc
        simp only [hstreams] at hst'
        have hlt : id < s.streamNonce := by
          by_contra hge
          rw [hn id (by omega)] at hst
          exact Option.noConfusion hst
        rw [if_neg (by omega), hst] at hst'
        injection hst' with he
        rw [← he]
        exact hact
    | withdrawOp caller id0 r2 s2 hw =>
        obtain ⟨st0, hst0, _, hact0, _⟩ := withdraw_ok_elim hw
        by_cases hid : id = id0
        · subst hid
          rw [hst] at hst0
          injection hst0 with he0
          rw [← he0, hact] at hact0
          exact Bool.noConfusion hact0
        · obtain ⟨_, _, _, _, _, _, _, _, _, _, hstreams⟩ :=
            withdraw_ok_elim hw
          simp only [hstreams] at hst'
          rw [if_neg hid, hst] at hst'
          injection hst' with he
          rw [← he]
          exact hact
    | cancelOp caller id0 r2 s2 hc2 =>
        obtain ⟨st0, hst0, _, hact0, _⟩ := cancelStream_ok_elim hc2
        by_cases hid : id = id0
        · subst hid
          rw [hst] at hst0
          injection hst0 with he0
          rw [← he0, hact] at hact0
          exact Bool.noConfusion hact0
        · obtain ⟨_, _, _, _, _, _, _, _, _, hstreams⟩ :=
            cancelStream_ok_elim hc2
          simp only [hstreams] at hst'
          rw [if_neg hid, hst] at hst'
          injection hst' with he
          rw [← he]
          exact hact
  · unfold withdraw
    rw [hst]
    dsimp only
    rw [if_pos rfl, hact, if_neg (by decide)]
  · unfold cancelStream
    rw [hst]
    dsimp only
    rw [if_pos rfl, hact, if_neg (by decide)]

theorem C6_cancel_is_permanent_witness :
    (∀ s' st', Step exCancelled s' → s'.streams 0 = some st' →
      st'.active = false) ∧
    (withdraw exCancelled 2 0).1 = .error .StreamNotActive ∧
    (cancelStream exCancelled 1 0).1 = .error .StreamNotActive :=
  C6_cancel_is_permanent exCancelled 0
    { sender := 1, recipient := 2, totalAmount := 100, withdrawn := 50,
      startBlock := 0, endBlock := 100, active := false }
    (Reachable.step (Reachable.step (Reachable.step (Reachable.step
        (Reachable.step (Reachable.base 0 exBal)
          (Step.create (initialState 0 exBal) 1 2 100 100 0 exS1 rfl))
        (Step.tick exS1 25))
        (Step.withdrawOp exS2 2 0 25 exS3 rfl))
      (Step.tick exS3 25))
      (Step.cancelOp exS4 1 0
        { recipientReceived := 25, senderRefunded := 50 } exCancelled rfl))
    rfl rfl

end Drip
